import Mathlib

/-!
# Verification of the resilient data-access layer

Shallow embedding, in Lean 4, of the decorator- and generator-based
data-access helpers of this repository, together with proofs of the
specified properties.

Embedded source functions:
* `cache_query` / `fetch_user_by_id_with_cache`
  (python-decorators-0x01/4-cache_query.py)
* `retry_on_failure` (python-decorators-0x01/3-retry_on_failure.py)
* `transactional` (python-decorators-0x01/2-transactional.py)
* `with_db_connection` (python-decorators-0x01/1-with_db_connection.py)
* `DatabaseConnection.__exit__`
  (python-context-async-perations-0x02/0-databaseconnection.py)
* `paginate_users` / `lazy_paginate` / `calculate_average_age`
  (python-generators-0x00/4-stream_ages.py)

Conventions: Python exceptions become `Except`; the module-level cache dict
becomes an association list threaded through the calls; side effects that
the claims mention (commit/rollback, connection close, number of times the
wrapped function runs) are recorded as explicit counters or action traces.
-/

namespace DataAccess

/-! ## Result cache (`cache_query`, 4-cache_query.py lines 35-56)

The Python decorator keeps a module-level dict `query_cache`; the wrapper
receives `(conn, query, *args)`, uses `cache_key = query` (the query string
alone), returns `query_cache[cache_key]` on a hit, and otherwise runs the
wrapped function, stores its result under `cache_key`, and returns it.
We model the dict as an association list (most recent insertion first) and
the wrapped database read as a pure function of the query text and the
bound parameter. The third component of the result counts how many times
the wrapped function was invoked during the call. -/

/-- Lookup in the cache dict: first entry whose key equals the query. -/
def cacheFind {R : Type} (cache : List (String × R)) (q : String) : Option R :=
  match cache with
  | [] => none
  | (k, v) :: rest => if k = q then some v else cacheFind rest q

/-- One call through the `cache_query` wrapper around a read that takes the
query text and one bound parameter (as `fetch_user_by_id_with_cache` does).
`cache_key = query`: the parameter does not enter the key. Returns the
result, the cache after the call, and the number of times the wrapped
read ran (0 on a hit, 1 on a miss). -/
def cache_query {P R : Type} (db : String → P → R)
    (cache : List (String × R)) (query : String) (param : P) :
    R × List (String × R) × Nat :=
  match cacheFind cache query with
  | some v => (v, cache, 0)
  | none =>
    let result := db query param
    (result, (query, result) :: cache, 1)

/-! ## Retry wrapper (`retry_on_failure`, 3-retry_on_failure.py lines 40-55)

The Python wrapper runs `for i in range(retries)`: each iteration calls the
wrapped function and returns its value on success; on any `Exception` it
retries while `i < retries - 1` (sleeping in between) and re-raises the
caught exception, unchanged, on the last iteration. If the loop never runs
(`retries <= 0`) the wrapper falls through and returns `None`.

`op i` is the outcome of attempt `i` (0-based). The model returns the
call's outcome — `.ok (some a)` a returned value, `.ok none` the implicit
`None` when the loop body never runs, `.error e` a raised exception — and
the number of attempts actually made. -/

/-- The `for i in range(retries)` loop of `retry_on_failure.wrapper`,
starting at iteration `i` with `count` attempts already made. -/
def retry_go {E A : Type} (retries : Nat) (op : Nat → Except E A)
    (i : Nat) (count : Nat) : Except E (Option A) × Nat :=
  if _h : i < retries then
    match op i with
    | .ok a => (.ok (some a), count + 1)
    | .error e =>
      if i < retries - 1 then retry_go retries op (i + 1) (count + 1)
      else (.error e, count + 1)
  else (.ok none, count)
termination_by retries - i

/-- `retry_on_failure(retries)` applied to an operation: run the attempt
loop from `i = 0`. -/
def retry_on_failure {E A : Type} (retries : Nat) (op : Nat → Except E A) :
    Except E (Option A) × Nat :=
  retry_go retries op 0 0

/-- `retries` is an `int` in Python; `range(retries)` is empty for every
non-positive value, so the loop behaves as with `retries.toNat`. -/
def retry_on_failure_int {E A : Type} (retries : Int) (op : Nat → Except E A) :
    Except E (Option A) × Nat :=
  retry_on_failure retries.toNat op

/-- The exception kinds the scripts raise: `sqlite3.OperationalError`
(transient in the spec's taxonomy) and `sqlite3.IntegrityError`
(a constraint violation — permanent in the spec's taxonomy). -/
inductive SqlError : Type
  | operational (msg : String)
  | integrity (msg : String)
  deriving DecidableEq, Repr

/-! ## Transaction boundary (`transactional`, 2-transactional.py lines 33-52)

The wrapper runs the wrapped function on the connection; on normal return
it calls `conn.commit()` and returns the result; on any exception it calls
`conn.rollback()` and re-raises the same exception.

The connection's durable state is the committed database `DB`; the wrapped
unit of work starts from it and produces `(outcome, pending)` — its pending
(uncommitted) writes, present even when it then raises. `commit` makes the
pending state durable; `rollback` discards it, leaving the state the
transaction started from. The trace records each commit/rollback call. -/

inductive TxAction : Type
  | commit
  | rollback
  deriving DecidableEq, Repr

/-- `transactional` around a unit of work `op : DB → Except E A × DB`,
run against committed state `db`. Returns the outcome the caller observes,
the committed state afterwards, and the trace of transaction calls. -/
def transactional {DB E A : Type} (op : DB → Except E A × DB) (db : DB) :
    Except E A × DB × List TxAction :=
  match op db with
  | (.ok a, pending) => (.ok a, pending, [TxAction.commit])
  | (.error e, _pending) => (.error e, db, [TxAction.rollback])

/-! ## Connection scope (`with_db_connection`, 1-with_db_connection.py
lines 7-32)

The wrapper sets `conn = None`, then in a `try` connects and runs the
wrapped function; an `except sqlite3.Error` clause logs and re-raises; the
`finally` clause closes the connection when `conn` is set. So: if the
connect itself fails, nothing is closed; once a connection exists, it is
closed exactly once on both the normal return path and every raising path.
The `Nat` component counts `conn.close()` calls. -/

/-- `with_db_connection` around `op`, given the outcome of
`sqlite3.connect` as `connect`. Errors are tagged with which phase raised
(`Sum.inl`: the connect; `Sum.inr`: the wrapped function). -/
def with_db_connection {Conn CErr E A : Type}
    (connect : Except CErr Conn) (op : Conn → Except E A) :
    Except (CErr ⊕ E) A × Nat :=
  match connect with
  | .error ce => (.error (Sum.inl ce), 0)
  | .ok conn =>
    match op conn with
    | .ok a => (.ok a, 1)
    | .error e => (.error (Sum.inr e), 1)

/-! ## Context-manager exit (`DatabaseConnection.__exit__`,
0-databaseconnection.py lines 37-65)

If `self.conn` is set: on an exception (`exc_type` non-None) it rolls back,
otherwise commits; then it closes the connection. It returns `False`, so
exceptions propagate. The trace records the calls made on the connection,
in order. -/

inductive ExitAction : Type
  | rollback
  | commit
  | close
  deriving DecidableEq, BEq, Repr

/-- `DatabaseConnection.__exit__`: `connOpen` says whether `self.conn` is
set, `exc` is the in-flight exception if any. Returns the trace of calls
and the boolean the method returns (`False`: never suppress). -/
def databaseConnection_exit {E : Type} (connOpen : Bool) (exc : Option E) :
    List ExitAction × Bool :=
  if connOpen then
    ((match exc with
      | some _ => [ExitAction.rollback]
      | none => [ExitAction.commit]) ++ [ExitAction.close], false)
  else ([], false)

/-! ## Pagination (`paginate_users` and `lazy_paginate`,
4-stream_ages.py lines 29-85)

`paginate_users(page_size, offset)` runs
`SELECT * FROM user_data LIMIT page_size OFFSET offset` and returns the
fetched rows; we model the table as the list `data` in its stored order, so
the query result is `(data.drop offset).take page_size`.

`lazy_paginate(page_size)` starts at `offset = 0` and loops: fetch a page;
`if not page: break`; yield the page; `offset += page_size`. The generator
is modelled as the list of pages it yields. Termination of the Lean
recursion: a non-empty page forces `offset < data.length` and
`page_size > 0`, so `data.length - offset` strictly decreases. -/

/-- One page fetch over table contents `data`: rows
`offset, …, offset + page_size - 1` in stored order. -/
def paginate_users {Row : Type} (data : List Row) (page_size offset : Nat) :
    List Row :=
  (data.drop offset).take page_size

/-- The sequence of pages `lazy_paginate` yields, starting at `offset`. -/
def lazy_paginate {Row : Type} (data : List Row) (page_size offset : Nat) :
    List (List Row) :=
  if _h : (paginate_users data page_size offset).isEmpty then []
  else
    paginate_users data page_size offset ::
      lazy_paginate data page_size (offset + page_size)
termination_by data.length - offset
decreasing_by
  have hne : paginate_users data page_size offset ≠ [] := by
    intro hnil
    exact _h (by simp [hnil])
  have hd : data.drop offset ≠ [] := by
    intro hnil
    exact hne (by simp [paginate_users, hnil])
  have hlen : offset < data.length := by
    by_contra hle
    exact hd (List.drop_eq_nil_of_le (by omega))
  have hp : page_size ≠ 0 := by
    intro h0
    exact hne (by simp [paginate_users, h0])
  omega

/-! ### Pagination against a fallible store

`paginate_users` in the source first initialises `rows = []`, then inside a
`try` connects and fetches the page; `if not connection: return []`; both
`except` clauses only log, so any database error leaves `rows = []`; the
`finally` closes up and `rows` is returned. So a failed fetch produces the
empty list, the same value an exhausted table produces. To state that, the
store is abstracted as `fetch page_size offset`, the outcome of the
connect-and-query for that page. -/

/-- `paginate_users` given the store's outcome for its single query:
the rows on success, `[]` on any `mysql.connector` error (and on a failed
connect). -/
def paginate_users_store {Row DbErr : Type}
    (fetch : Nat → Nat → Except DbErr (List Row)) (page_size offset : Nat) :
    List Row :=
  match fetch page_size offset with
  | .ok rows => rows
  | .error _ => []

/-- `lazy_paginate` over the abstract store. The Python `while True` loop
need not terminate for an arbitrary store, so the model carries explicit
`fuel`; every claim proved about it holds for all fuel values. -/
def lazy_paginate_store {Row DbErr : Type}
    (fetch : Nat → Nat → Except DbErr (List Row)) (page_size : Nat) :
    Nat → Nat → List (List Row)
  | _offset, 0 => []
  | offset, fuel + 1 =>
    if (paginate_users_store fetch page_size offset).isEmpty then []
    else
      paginate_users_store fetch page_size offset ::
        lazy_paginate_store fetch page_size (offset + page_size) fuel

/-! ## Streaming average (`calculate_average_age`,
4-stream_ages.py lines 123-140)

The function folds over the ages yielded by `stream_user_ages`, keeping
`total_age` and `user_count`; after the stream, `if user_count > 0` it
computes `total_age / user_count` (one division) and prints the average,
else it prints "No users found to calculate average age." and simply
returns. Ages are modelled as rationals (Python numerics without rounding
for these values); the printed report is the observable outcome. -/

inductive AvgReport : Type
  | average (value : ℚ)
  | noUsers
  deriving DecidableEq, Repr

/-- `calculate_average_age` over the streamed ages: one pass accumulating
`(total_age, user_count)`, then a single division, or the no-users report
when nothing was streamed. -/
def calculate_average_age (ages : List ℚ) : AvgReport :=
  let acc := ages.foldl (fun (s : ℚ × Nat) age => (s.1 + age, s.2 + 1)) (0, 0)
  if acc.2 > 0 then AvgReport.average (acc.1 / (acc.2 : ℚ))
  else AvgReport.noUsers

/-! ## Helper lemmas -/

/-- Unfolding of one loop iteration when the attempt fails and attempts
remain: the loop continues at `i + 1`. -/
theorem retry_go_all_fail {E A : Type} (retries : Nat) (errs : Nat → E) :
    ∀ n i count, retries - i ≤ n → i < retries →
      retry_go (E := E) (A := A) retries (fun j => Except.error (errs j)) i count =
        (Except.error (errs (retries - 1)), count + (retries - i)) := by
  intro n
  induction n with
  | zero => intro i count hn hi; omega
  | succ n ih =>
    intro i count hn hi
    rw [retry_go, dif_pos hi]
    show (if i < retries - 1 then
        retry_go retries (fun j => Except.error (errs j)) (i + 1) (count + 1)
      else (Except.error (errs i), count + 1)) =
      (Except.error (errs (retries - 1)), count + (retries - i))
    by_cases hlast : i < retries - 1
    · rw [if_pos hlast, ih (i + 1) (count + 1) (by omega) (by omega)]
      have : count + 1 + (retries - (i + 1)) = count + (retries - i) := by omega
      rw [this]
    · rw [if_neg hlast]
      have hi1 : i = retries - 1 := by omega
      have hc : retries - i = 1 := by omega
      rw [hc, hi1]

/-- A fetched page is empty exactly when the table is already exhausted
(for a positive page size). -/
theorem paginate_users_eq_nil_iff {Row : Type} (data : List Row)
    (page_size offset : Nat) (hp : 0 < page_size) :
    paginate_users data page_size offset = [] ↔ data.length ≤ offset := by
  rw [paginate_users, List.take_eq_nil_iff, List.drop_eq_nil_iff]
  omega

/-- One step of the ceiling division `(m + p - 1) / p` that counts the
pages of `m` remaining rows: one page plus the pages of the `m - p`
remaining rows. -/
theorem ceil_div_step (p m : Nat) (hp : 0 < p) (hm : 0 < m) :
    (m + p - 1) / p = ((m - p) + p - 1) / p + 1 := by
  rcases Nat.lt_or_ge p m with hpm | hpm
  · have h1 : m + p - 1 = (m - 1) + p := by omega
    have h2 : (m - p) + p - 1 = m - 1 := by omega
    rw [h1, h2, Nat.add_div_right _ hp]
  · have h1 : m - p = 0 := by omega
    have h2 : m + p - 1 = (m - 1) + p := by omega
    rw [h1, h2, Nat.add_div_right _ hp]
    have h3 : (m - 1) / p = 0 := Nat.div_eq_of_lt (by omega)
    have h4 : (0 + p - 1) / p = 0 := Nat.div_eq_of_lt (by omega)
    rw [h3, h4]

/-- Concatenating the pages yielded from `offset` on reproduces the table
from `offset` on (induction on the remaining length). -/
theorem lazy_paginate_flatten_aux {Row : Type} (data : List Row) (p : Nat)
    (hp : 0 < p) :
    ∀ n offset, data.length - offset ≤ n →
      (lazy_paginate data p offset).flatten = data.drop offset := by
  intro n
  induction n with
  | zero =>
    intro offset h
    have hnil : data.drop offset = [] := List.drop_eq_nil_of_le (by omega)
    rw [lazy_paginate, dif_pos (by simp [paginate_users, hnil]), hnil]
    rfl
  | succ n ih =>
    intro offset h
    rw [lazy_paginate]
    by_cases hpage : (paginate_users data p offset).isEmpty
    · rw [dif_pos hpage]
      have hnil : data.length ≤ offset :=
        (paginate_users_eq_nil_iff data p offset hp).mp (by simpa using hpage)
      rw [List.drop_eq_nil_of_le hnil]
      rfl
    · rw [dif_neg hpage]
      have hne : paginate_users data p offset ≠ [] := by simpa using hpage
      have hlt : offset < data.length := by
        by_contra hge
        exact hne ((paginate_users_eq_nil_iff data p offset hp).mpr (by omega))
      rw [List.flatten_cons, ih (offset + p) (by omega), paginate_users,
        List.drop_take_append_drop]

/-- The number of pages yielded from `offset` on is the ceiling of
(remaining rows) / `page_size`. -/
theorem lazy_paginate_length_aux {Row : Type} (data : List Row) (p : Nat)
    (hp : 0 < p) :
    ∀ n offset, data.length - offset ≤ n →
      (lazy_paginate data p offset).length =
        ((data.length - offset) + p - 1) / p := by
  intro n
  induction n with
  | zero =>
    intro offset h
    have hnil : data.drop offset = [] := List.drop_eq_nil_of_le (by omega)
    rw [lazy_paginate, dif_pos (by simp [paginate_users, hnil])]
    have hm : data.length - offset = 0 := by omega
    rw [hm, List.length_nil]
    exact (Nat.div_eq_of_lt (by omega)).symm
  | succ n ih =>
    intro offset h
    rw [lazy_paginate]
    by_cases hpage : (paginate_users data p offset).isEmpty
    · rw [dif_pos hpage]
      have hnil : data.length ≤ offset :=
        (paginate_users_eq_nil_iff data p offset hp).mp (by simpa using hpage)
      have hm : data.length - offset = 0 := by omega
      rw [hm, List.length_nil]
      exact (Nat.div_eq_of_lt (by omega)).symm
    · rw [dif_neg hpage]
      have hne : paginate_users data p offset ≠ [] := by simpa using hpage
      have hlt : offset < data.length := by
        by_contra hge
        exact hne ((paginate_users_eq_nil_iff data p offset hp).mpr (by omega))
      rw [List.length_cons, ih (offset + p) (by omega)]
      have hsub : data.length - (offset + p) = (data.length - offset) - p := by
        omega
      rw [hsub, ceil_div_step p (data.length - offset) hp (by omega)]

/-- Every page the pager yields is non-empty (the empty fetch terminates
the sequence instead of being yielded). -/
theorem lazy_paginate_mem_ne_nil {Row : Type} (data : List Row) (p : Nat) :
    ∀ n offset, data.length - offset ≤ n →
      ∀ pg ∈ lazy_paginate data p offset, pg ≠ [] := by
  intro n
  induction n with
  | zero =>
    intro offset h pg hpg
    have hnil : data.drop offset = [] := List.drop_eq_nil_of_le (by omega)
    rw [lazy_paginate, dif_pos (by simp [paginate_users, hnil])] at hpg
    exact absurd hpg (List.not_mem_nil pg)
  | succ n ih =>
    intro offset h pg hpg
    rw [lazy_paginate] at hpg
    by_cases hpage : (paginate_users data p offset).isEmpty
    · rw [dif_pos hpage] at hpg
      exact absurd hpg (List.not_mem_nil pg)
    · rw [dif_neg hpage] at hpg
      have hne : paginate_users data p offset ≠ [] := by simpa using hpage
      have hd : data.drop offset ≠ [] := by
        intro hnil
        exact hne (by simp [paginate_users, hnil])
      have hlt : offset < data.length := by
        by_contra hge
        exact hd (List.drop_eq_nil_of_le (by omega))
      have hp0 : 0 < p := by
        rcases Nat.eq_zero_or_pos p with h0 | h0
        · exact absurd (by simp [paginate_users, h0]) hne
        · exact h0
      rcases List.mem_cons.mp hpg with heq | hmem
      · exact heq ▸ hne
      · exact ih (offset + p) (by omega) pg hmem

/-- The pager's sequence is over exactly when the fetch at the current
offset comes back empty. -/
theorem lazy_paginate_eq_nil_iff {Row : Type} (data : List Row)
    (p offset : Nat) :
    lazy_paginate data p offset = [] ↔ paginate_users data p offset = [] := by
  constructor
  · intro h
    by_contra hne
    rw [lazy_paginate, dif_neg (by simpa using hne)] at h
    exact List.cons_ne_nil _ _ h
  · intro h
    rw [lazy_paginate, dif_pos (by simpa using h)]

/-! ## Claim theorems -/

/-- Claim C1, counterexample: with the database returning the queried
user id, caching `fetch_user_by_id_with_cache` style calls under
`cache_query` and calling twice with the same query text but parameters
1 and 2, the second call returns the entry stored for parameter 1 — not
the row for parameter 2 — because `cache_key = query` ignores the bound
parameters. This refutes the claim that such lookups are distinct. -/
theorem c1_cache_hit_ignores_params_cex :
    (cache_query (fun (_q : String) (userId : Nat) => userId)
        (cache_query (fun (_q : String) (userId : Nat) => userId) []
          "SELECT * FROM users WHERE id = ?" 1).2.1
        "SELECT * FROM users WHERE id = ?" 2).1 = 1
    ∧ (cache_query (fun (_q : String) (userId : Nat) => userId)
        (cache_query (fun (_q : String) (userId : Nat) => userId) []
          "SELECT * FROM users WHERE id = ?" 1).2.1
        "SELECT * FROM users WHERE id = ?" 2).1
      ≠ (fun (_q : String) (userId : Nat) => userId)
          "SELECT * FROM users WHERE id = ?" 2 := by
  decide

/-- Claim C1, amended: the cache key is the query text alone, so a second
call with the same query string but different bound parameters is a cache
hit: it returns the result stored by the first call (computed from the
first call's parameters) and does not run the wrapped read at all. -/
theorem c1_cache_key_is_query_text {P R : Type} (db : String → P → R)
    (cache : List (String × R)) (q : String) (p1 p2 : P)
    (hmiss : cacheFind cache q = none) :
    (cache_query db (cache_query db cache q p1).2.1 q p2).1 =
      (cache_query db cache q p1).1
    ∧ (cache_query db (cache_query db cache q p1).2.1 q p2).2.2 = 0
    ∧ (cache_query db cache q p1).1 = db q p1 := by
  simp [cache_query, hmiss, cacheFind]

/-- Witness for `c1_cache_key_is_query_text` at a concrete database,
empty cache and parameters 1 and 2. -/
theorem c1_cache_key_witness :
    cacheFind ([] : List (String × Nat)) "SELECT name FROM users WHERE id = ?" = none
    ∧ (cache_query (fun (_q : String) (userId : Nat) => userId + 100)
        (cache_query (fun (_q : String) (userId : Nat) => userId + 100) []
          "SELECT name FROM users WHERE id = ?" 1).2.1
        "SELECT name FROM users WHERE id = ?" 2).1 =
      (cache_query (fun (_q : String) (userId : Nat) => userId + 100) []
        "SELECT name FROM users WHERE id = ?" 1).1 :=
  ⟨rfl,
    (c1_cache_key_is_query_text (fun (_q : String) (userId : Nat) => userId + 100)
      [] "SELECT name FROM users WHERE id = ?" 1 2 rfl).1⟩

/-- Claim C2, counterexample: a permanent failure (a constraint
violation, `sqlite3.IntegrityError`) raised on every attempt is retried
like any other exception: with `retries = 3` the wrapped operation runs
3 times, not once — `retry_on_failure` catches bare `Exception` and never
classifies failures. -/
theorem c2_permanent_failure_retried_cex :
    (retry_on_failure 3
        (fun _ => (Except.error (SqlError.integrity "UNIQUE constraint failed") :
          Except SqlError Unit))).2 = 3 := by
  have h := retry_go_all_fail (A := Unit) 3
    (fun _ => SqlError.integrity "UNIQUE constraint failed") 3 0 0 (by omega) (by omega)
  rw [retry_on_failure, h]

/-- Claim C2, amended: the retry wrapper performs no failure
classification; an operation whose every attempt raises a permanent
failure (constraint violation) is still retried until the configured
count is exhausted, and only then is the failure re-signaled — it is not
re-signaled immediately after the first attempt. -/
theorem c2_no_failure_classification (retries : Nat) (h : 1 ≤ retries) (msg : String) :
    retry_on_failure retries
        (fun _ => (Except.error (SqlError.integrity msg) : Except SqlError Unit)) =
      (Except.error (SqlError.integrity msg), retries) := by
  rw [retry_on_failure]
  have hall := retry_go_all_fail (A := Unit) retries
    (fun _ => SqlError.integrity msg) retries 0 0 (by omega) (by omega)
  simpa using hall

/-- Witness for `c2_no_failure_classification` with two configured
attempts. -/
theorem c2_no_classification_witness :
    1 ≤ 2
    ∧ retry_on_failure 2
        (fun _ => (Except.error (SqlError.integrity "boom") : Except SqlError Unit)) =
      (Except.error (SqlError.integrity "boom"), 2) :=
  ⟨by omega, c2_no_failure_classification 2 (by omega) "boom"⟩

/-- Claim C3, counterexample: the failure surfaced after exhausting 2
attempts is the bare last exception, identical to the failure surfaced
by a single-attempt run — the `raise` statement re-raises the caught
exception unchanged, with no attempt-count tag, so the caller cannot
distinguish exhausted retries from a single failure. -/
theorem c3_exhausted_failure_untagged_cex :
    (retry_on_failure 2
        (fun _ => (Except.error "database is locked" : Except String Unit))).1 =
    (retry_on_failure 1
        (fun _ => (Except.error "database is locked" : Except String Unit))).1 := by
  have h2 := retry_go_all_fail (A := Unit) 2
    (fun _ => "database is locked") 2 0 0 (by omega) (by omega)
  have h1 := retry_go_all_fail (A := Unit) 1
    (fun _ => "database is locked") 1 0 0 (by omega) (by omega)
  rw [retry_on_failure, retry_on_failure, h1, h2]

/-- Claim C3, amended: with `retries = N ≥ 1` and an operation failing on
every attempt, exactly N attempts are made and the failure re-signaled to
the caller is the last attempt's failure, unchanged (it carries no
attempt-count annotation; the attempt count appears only in log output). -/
theorem c3_exact_attempts_last_failure {E A : Type} (retries : Nat)
    (h : 1 ≤ retries) (errs : Nat → E) :
    retry_on_failure (A := A) retries (fun i => Except.error (errs i)) =
      (Except.error (errs (retries - 1)), retries) := by
  rw [retry_on_failure,
    retry_go_all_fail retries errs retries 0 0 (by omega) (by omega)]
  simp

/-- Witness for `c3_exact_attempts_last_failure`: 3 attempts, each
failing with its attempt index; the surfaced failure is attempt 2's
(0-based) and 3 attempts were made. -/
theorem c3_exact_attempts_witness :
    1 ≤ 3
    ∧ retry_on_failure 3 (fun i => (Except.error i : Except Nat Unit)) =
      (Except.error 2, 3) :=
  ⟨by omega, c3_exact_attempts_last_failure 3 (by omega) (fun i => i)⟩

/-- Claim C10: with `retries = 0` — or any non-positive `int`, since
`range(retries)` is then empty — the loop body never runs: the wrapped
operation is never invoked (attempt count 0) and the wrapper falls
through, returning `None` without raising. -/
theorem c10_zero_retries_no_attempt {E A : Type} (op : Nat → Except E A)
    (retries : Int) (h : retries ≤ 0) :
    retry_on_failure_int retries op = (Except.ok none, 0)
    ∧ retry_on_failure 0 op = (Except.ok none, 0) := by
  have ht : retries.toNat = 0 := Int.toNat_eq_zero.mpr h
  constructor
  · rw [retry_on_failure_int, ht, retry_on_failure, retry_go,
      dif_neg (by omega)]
  · rw [retry_on_failure, retry_go, dif_neg (by omega)]

/-- Witness for `c10_zero_retries_no_attempt` at `retries = -2` and an
operation that would fail if it ever ran. -/
theorem c10_zero_retries_witness :
    (-2 : Int) ≤ 0
    ∧ retry_on_failure_int (-2)
        (fun _ => (Except.error "never reached" : Except String Nat)) =
      (Except.ok none, 0) :=
  ⟨by decide,
    (c10_zero_retries_no_attempt
      (fun _ => (Except.error "never reached" : Except String Nat)) (-2)
      (by decide)).1⟩

/-- The accumulator loop of `calculate_average_age` computes the sum and
the count of the streamed ages. -/
theorem avg_fold_spec (ages : List ℚ) :
    ∀ (s : ℚ) (n : Nat),
      ages.foldl (fun (acc : ℚ × Nat) age => (acc.1 + age, acc.2 + 1)) (s, n) =
        (s + ages.sum, n + ages.length) := by
  induction ages with
  | nil => intro s n; simp
  | cons a t ih =>
    intro s n
    rw [List.foldl_cons, ih, List.sum_cons, List.length_cons]
    simp only [Prod.mk.injEq]
    constructor
    · ring
    · omega

/-- Claim C4, counterexample: streaming zero rows does not fail — the
`else` branch reports "no users" and the call completes normally, so no
`EmptyDatasetError`-like failure is ever signaled. -/
theorem c4_empty_stream_reports_no_users_cex :
    calculate_average_age [] = AvgReport.noUsers := rfl

/-- Claim C4, amended: the streaming average is `sum / count` with the
single division performed after the stream ends; over the ages
[30, 22, 45, 28, 50] it reports the average 35; over zero rows it does
not fail but reports "no users" and completes normally. -/
theorem c4_streaming_average :
    (∀ ages : List ℚ, calculate_average_age ages =
      if 0 < ages.length then
        AvgReport.average (ages.sum / (ages.length : ℚ))
      else AvgReport.noUsers)
    ∧ calculate_average_age [30, 22, 45, 28, 50] = AvgReport.average 35
    ∧ calculate_average_age [] = AvgReport.noUsers := by
  have hgen : ∀ ages : List ℚ, calculate_average_age ages =
      if 0 < ages.length then
        AvgReport.average (ages.sum / (ages.length : ℚ))
      else AvgReport.noUsers := by
    intro ages
    rw [calculate_average_age]
    rw [show ((0 : ℚ), (0 : Nat)) = ((0 : ℚ), (0 : Nat)) from rfl]
    rw [avg_fold_spec ages 0 0]
    simp [Nat.pos_iff_ne_zero]
  refine ⟨hgen, ?_, hgen []⟩
  rw [hgen [30, 22, 45, 28, 50]]
  norm_num

/-- Claim C5: `transactional` commits exactly once if and only if the
wrapped unit of work returns without failure; on any failure it rolls
back exactly once, the committed state is exactly what the transaction
started from, and the failure reaching the caller is the wrapped
operation's failure unchanged. -/
theorem c5_commit_iff_success {DB E A : Type} (op : DB → Except E A × DB)
    (db : DB) :
    (transactional op db).1 = (op db).1
    ∧ ((transactional op db).2.2 = [TxAction.commit] ↔
        ∃ a, (op db).1 = Except.ok a)
    ∧ (∀ e, (op db).1 = Except.error e →
        (transactional op db).2.2 = [TxAction.rollback]
        ∧ (transactional op db).2.1 = db)
    ∧ (∀ a, (op db).1 = Except.ok a →
        (transactional op db).2.1 = (op db).2) := by
  rcases hop : op db with ⟨res, pending⟩
  cases res with
  | ok a => simp [transactional, hop]
  | error e => simp [transactional, hop]

/-- Witness for `c5_commit_iff_success`: a unit of work that writes 1
into the pending state and then fails leaves the committed state at 0,
with a single rollback in the trace. -/
theorem c5_commit_iff_success_witness :
    ((fun (_ : Nat) => ((Except.error "constraint violated" : Except String Unit), 1)) 0).1 =
      Except.error "constraint violated"
    ∧ (transactional
        (fun (_ : Nat) => ((Except.error "constraint violated" : Except String Unit), 1))
        0).2.2 = [TxAction.rollback]
    ∧ (transactional
        (fun (_ : Nat) => ((Except.error "constraint violated" : Except String Unit), 1))
        0).2.1 = 0 := by
  refine ⟨rfl, ?_⟩
  have h := (c5_commit_iff_success
    (fun (_ : Nat) => ((Except.error "constraint violated" : Except String Unit), 1))
    0).2.2.1 "constraint violated" rfl
  exact ⟨h.1, h.2⟩

/-- Claim C6: for a table of M rows and `page_size = p > 0`,
`lazy_paginate` yields exactly ⌈M/p⌉ pages, all of them non-empty;
concatenating the yielded pages reproduces the table in stored order;
and, from any offset, the sequence ends exactly when the fetched page is
empty — so a non-empty page shorter than `p` is still yielded and the
next fetch decides termination. -/
theorem c6_lazy_pager_pages {Row : Type} (data : List Row) (p : Nat)
    (hp : 0 < p) :
    (lazy_paginate data p 0).length = (data.length + p - 1) / p
    ∧ (lazy_paginate data p 0).flatten = data
    ∧ (∀ pg ∈ lazy_paginate data p 0, pg ≠ [])
    ∧ (∀ offset, lazy_paginate data p offset = [] ↔
        paginate_users data p offset = []) := by
  refine ⟨?_, ?_, ?_, ?_⟩
  · have h := lazy_paginate_length_aux data p hp data.length 0 (by omega)
    simpa using h
  · have h := lazy_paginate_flatten_aux data p hp data.length 0 (by omega)
    simpa using h
  · exact lazy_paginate_mem_ne_nil data p data.length 0 (by omega)
  · intro offset
    exact lazy_paginate_eq_nil_iff data p offset

/-- Witness for `c6_lazy_pager_pages`: 3 rows with page size 2 give
⌈3/2⌉ = 2 pages whose concatenation is the table. -/
theorem c6_lazy_pager_witness :
    0 < 2
    ∧ (lazy_paginate [10, 20, 30] 2 0).length = 2
    ∧ (lazy_paginate [10, 20, 30] 2 0).flatten = [10, 20, 30] := by
  refine ⟨by omega, ?_, (c6_lazy_pager_pages [10, 20, 30] 2 (by omega)).2.1⟩
  have h := (c6_lazy_pager_pages [10, 20, 30] 2 (by omega)).1
  simpa using h

/-- Claim C7: once a connection is acquired, `with_db_connection` closes
it exactly once on both exit paths (normal return and raised failure),
and `DatabaseConnection.__exit__` with an open connection calls `close`
exactly once whether or not an exception is in flight. -/
theorem c7_connection_released_once {Conn CErr E A : Type}
    (connect : Except CErr Conn) (op : Conn → Except E A) (conn : Conn)
    (h : connect = Except.ok conn) :
    (with_db_connection connect op).2 = 1
    ∧ (∀ exc : Option E,
        ((databaseConnection_exit true exc).1.count ExitAction.close) = 1) := by
  subst h
  constructor
  · cases hop : op conn <;> simp [with_db_connection, hop]
  · intro exc
    cases exc <;> rfl

/-- Witness for `c7_connection_released_once`: a successful connect with
an operation that fails still closes exactly once. -/
theorem c7_released_once_witness :
    (Except.ok () : Except String Unit) = Except.ok ()
    ∧ (with_db_connection (Except.ok () : Except String Unit)
        (fun _ => (Except.error "query failed" : Except String Nat))).2 = 1 :=
  ⟨rfl,
    (c7_connection_released_once (Except.ok ())
      (fun _ => (Except.error "query failed" : Except String Nat)) () rfl).1⟩

/-- Claim C8: two consecutive calls through `cache_query` with the same
signature (the same query text, hence the same cache key) run the wrapped
read at most once in total: the second call runs it zero times and
returns exactly the first call's result. -/
theorem c8_cache_idempotent {P R : Type} (db : String → P → R)
    (cache : List (String × R)) (q : String) (p : P) :
    (cache_query db (cache_query db cache q p).2.1 q p).2.2 = 0
    ∧ (cache_query db (cache_query db cache q p).2.1 q p).1 =
      (cache_query db cache q p).1
    ∧ (cache_query db cache q p).2.2 +
        (cache_query db (cache_query db cache q p).2.1 q p).2.2 ≤ 1 := by
  cases hfind : cacheFind cache q <;> simp [cache_query, hfind, cacheFind]

/-- Claim C9: `paginate_users` turns any store failure into the empty
page, the page sequence over the real store is identical to the sequence
over an error-free store that returns those collapsed pages (so a
mid-pagination failure is indistinguishable from normal exhaustion), and
a fetch failure at the current offset ends the sequence immediately; the
sequence's type carries no failure, so no error propagates to the
consumer. -/
theorem c9_store_failure_like_exhaustion {Row DbErr : Type}
    (fetch : Nat → Nat → Except DbErr (List Row)) (p : Nat) :
    (∀ (e : DbErr) (ps off : Nat), fetch ps off = Except.error e →
        paginate_users_store fetch ps off =
          paginate_users_store
            (fun _ _ => (Except.ok [] : Except DbErr (List Row))) ps off)
    ∧ (∀ offset fuel,
        lazy_paginate_store fetch p offset fuel =
          lazy_paginate_store
            (fun ps off => (Except.ok (paginate_users_store fetch ps off) :
              Except DbErr (List Row)))
            p offset fuel)
    ∧ (∀ (e : DbErr) (offset fuel : Nat), fetch p offset = Except.error e →
        lazy_paginate_store fetch p offset (fuel + 1) = []) := by
  refine ⟨?_, ?_, ?_⟩
  · intro e ps off h
    simp [paginate_users_store, h]
  · intro offset fuel
    induction fuel generalizing offset with
    | zero => rfl
    | succ n ih =>
      simp only [lazy_paginate_store]
      rw [show paginate_users_store
          (fun ps off => (Except.ok (paginate_users_store fetch ps off) :
            Except DbErr (List Row))) p offset =
          paginate_users_store fetch p offset from rfl]
      by_cases hpage : (paginate_users_store fetch p offset).isEmpty
      · rw [if_pos hpage, if_pos hpage]
      · rw [if_neg hpage, if_neg hpage, ih]
  · intro e offset fuel h
    simp [lazy_paginate_store, paginate_users_store, h]

/-- Witness for `c9_store_failure_like_exhaustion`: a store that is down
from the start produces the same page sequence as an empty table — no
pages, no error. -/
theorem c9_store_failure_witness :
    (fun (_ps _off : Nat) => (Except.error "db down" : Except String (List Nat))) 2 0 =
      Except.error "db down"
    ∧ lazy_paginate_store
        (fun _ _ => (Except.error "db down" : Except String (List Nat))) 2 0 5 = [] :=
  ⟨rfl,
    (c9_store_failure_like_exhaustion
      (fun _ _ => (Except.error "db down" : Except String (List Nat))) 2).2.2
      "db down" 0 4 rfl⟩

end DataAccess
